import Mathlib

/-!
Verification of the BuildBidz payment-order lifecycle and award-consistency
protocol, as implemented in `server/routes.ts` (payment endpoints), the
map-based `MemStorage` of `server/storage.ts` (the live storage variant, as
witnessed by `routes.ts` touching `(storage as any).messages` directly), and
the Zod request schemas of `shared/schema.ts`.

The embedding is shallow and executable:

* JavaScript strings stay `String`; monetary columns (`amount`, `price`,
  Postgres `decimal`) are carried as decimal strings exactly as in the code.
* `parseFloat` is modelled by `jsParseFloat`: the exact rational value of the
  leading unsigned decimal numeral, rounded to the nearest IEEE-754 binary64
  value (`roundFloat`, round-to-nearest, ties-to-even).  `NaN` is `none`.
  (Signs, exponent notation and the overflow-to-infinity range are outside
  the values this system handles and are not modelled.)
* `Math.round` is `jsRound` (half towards positive infinity).
* HMAC-SHA256 itself is an external primitive: definitions that need it are
  parametrised over `hmacHex : String → String → String` (key, message ↦
  lowercase hex digest).  The only fact used about it is that its output is
  64 hex characters (32 bytes once hex-decoded), which holds for any
  SHA-256-based HMAC.
* `Buffer.from(s, 'hex')` is `hexDecode` (decodes pairs of hex digits,
  truncating at the first invalid pair, as Node does), and
  `crypto.timingSafeEqual` is `timingSafeEqual`, which — as in Node — throws
  (`Except.error`) when the two buffers have different lengths.
* `express.json()` followed by `JSON.stringify` is modelled by a small JSON
  parse/print pair (`parseJson`/`stringifyJson`) covering the object /
  string / integer fragment the webhook payloads use.
* The in-memory store's `Map`s are association lists in insertion order
  (`Map.set` on an existing key keeps its position, so updates are
  position-preserving `List.map`s and inserts append).
* `createdAt`/`updatedAt` bookkeeping is elided; audit-entry timestamps are
  modelled as a `Nat` tick taken from the state clock, matching where the
  code attaches `new Date().toISOString()`.
-/

namespace BuildBidz

/-! ## Decimal numerals and the JS float model -/

/-- Numeric value of a decimal digit character. -/
def digitVal (c : Char) : Nat := c.toNat - 48

/-- Value of a list of decimal digit characters, most significant first. -/
def natOfDigits (l : List Char) : Nat :=
  l.foldl (fun a c => 10 * a + digitVal c) 0

/-- The Zod schema regex for amounts in `createPaymentOrderSchema`:
`/^\d+(\.\d\x7b1,2\x7d?)?$/` — one or more digits, optionally a dot and one or
two fractional digits. -/
def isAmountStr (s : String) : Bool :=
  let l := s.data
  let intPart := l.takeWhile (·.isDigit)
  let rest := l.dropWhile (·.isDigit)
  intPart ≠ [] &&
    (rest = [] ||
      (rest.headD ' ' = '.' && rest.tail ≠ [] && rest.tail.length ≤ 2 &&
        rest.tail.all (·.isDigit)))

/-- A non-negative rational `n / d` (with `d ≠ 0` by construction), kept
unnormalized so that every operation is a structural computation the kernel
can evaluate.  Value equality is `qEq` (cross multiplication), not structural
equality. -/
structure Frac where
  n : Nat
  d : Nat
deriving DecidableEq, Repr

/-- Value equality of two fractions: `a.n / a.d = b.n / b.d`. -/
def qEq (a b : Frac) : Bool := a.n * b.d = b.n * a.d

/-- Value order on fractions: `a.n / a.d ≤ b.n / b.d`. -/
def qLe (a b : Frac) : Bool := a.n * b.d ≤ b.n * a.d

/-- The fraction `i + f / 10 ^ len`: the exact value of a decimal numeral
with integer part `i` and `len` fractional digits of value `f`. -/
def decFrac (i f len : Nat) : Frac := ⟨i * 10 ^ len + f, 10 ^ len⟩

/-- Exact rational value of the leading unsigned decimal numeral of a string:
the fragment of JavaScript `parseFloat`'s prefix parsing that the payment
amounts exercise.  `none` when no digit leads the string (JS `NaN`). -/
def decPrefixVal (s : String) : Option Frac :=
  let l := s.data
  let intPart := l.takeWhile (·.isDigit)
  let rest := l.dropWhile (·.isDigit)
  let frac := if rest.headD ' ' = '.' then rest.tail.takeWhile (·.isDigit) else []
  if intPart = [] && frac = [] then none
  else some (decFrac (natOfDigits intPart) (natOfDigits frac) frac.length)

/-- The exact decimal value denoted by a full decimal-numeral string (used to
state "compared as decimal values": two strings denote the same decimal value
iff their `decValue`s are `qEq`). `none` if the string is not a plain
unsigned decimal numeral. -/
def decValue (s : String) : Option Frac :=
  let l := s.data
  let intPart := l.takeWhile (·.isDigit)
  let rest := l.dropWhile (·.isDigit)
  if intPart = [] then none
  else if rest = [] then some ⟨natOfDigits intPart, 1⟩
  else if rest.headD ' ' = '.' && rest.tail ≠ [] && rest.tail.all (·.isDigit) then
    some (decFrac (natOfDigits intPart) (natOfDigits rest.tail) rest.tail.length)
  else none

/-- Fuel-driven `⌊log₂⌋` on naturals (structural, kernel-computable). -/
def natLog2F : Nat → Nat → Nat
  | 0, _ => 0
  | fuel + 1, n => if 2 ≤ n then natLog2F fuel (n / 2) + 1 else 0

/-- `⌊log₂ n⌋` for `n ≥ 1` (and `0` at `0`). -/
def natLog2 (n : Nat) : Nat := natLog2F n n

/-- The fraction `2 ^ k` for an integer exponent. -/
def pow2z (k : ℤ) : Frac :=
  if 0 ≤ k then ⟨2 ^ k.toNat, 1⟩ else ⟨1, 2 ^ (-k).toNat⟩

/-- Exact product of two fractions. -/
def mulF (a b : Frac) : Frac := ⟨a.n * b.n, a.d * b.d⟩

/-- `⌊log₂ q⌋` for a positive fraction. -/
def floorLog2 (q : Frac) : ℤ :=
  let k : ℤ := (natLog2 q.n : ℤ) - (natLog2 q.d : ℤ)
  if qLe (pow2z k) q then k else k - 1

/-- Round `a / b` (with `b > 0`) to the nearest natural number, ties to even. -/
def rne (a b : Nat) : Nat :=
  let q := a / b
  let r := a % b
  if 2 * r < b then q
  else if b < 2 * r then q + 1
  else if q % 2 = 0 then q else q + 1

/-- Round a non-negative fraction to the nearest IEEE-754 binary64 value
(round-to-nearest, ties-to-even), returned as the exact fraction it denotes.
Models the value a JS number holds after parsing / arithmetic, within the
normal finite range the payment amounts occupy. -/
def roundFloat (q : Frac) : Frac :=
  if q.n = 0 then ⟨0, 1⟩
  else
    let e : ℤ := floorLog2 q - 52
    let scaled : Frac := mulF q (pow2z (-e))
    mulF ⟨rne scaled.n scaled.d, 1⟩ (pow2z e)

/-- JavaScript `parseFloat` on the strings this system feeds it: exact decimal
value of the leading numeral, rounded to binary64.  `none` is `NaN`. -/
def jsParseFloat (s : String) : Option Frac :=
  (decPrefixVal s).map roundFloat

/-- JS strict inequality `parseFloat(a) !== parseFloat(b)` on numbers:
double values compare by value, and `NaN !== x` is true for every `x`,
including `NaN` itself. -/
def floatNe (x y : Option Frac) : Bool :=
  match x, y with
  | some a, some b => !(qEq a b)
  | _, _ => true

/-- Binary64 multiplication: exact product, rounded back to a double. -/
def floatMul (a b : Frac) : Frac := roundFloat (mulF a b)

/-- JavaScript `Math.round` on a non-negative double: nearest integer, half
towards `+∞`, i.e. `⌊q + 1/2⌋`. -/
def jsRound (q : Frac) : ℤ := ((2 * q.n + q.d) / (2 * q.d) : Nat)

/-- JS `x || y` for an optional string `x`: the empty string is falsy. -/
def jsOrStr (x : Option String) (d : String) : String :=
  match x with
  | some s => if s = "" then d else s
  | none => d

/-! ## Data model (`shared/schema.ts`, fields the payment core touches) -/

/-- A user row: only `id` and `role` matter to the payment core. -/
structure User where
  id : String
  role : String
deriving DecidableEq, Repr

/-- A project row (payment-relevant fields of the `projects` table). -/
structure Project where
  id : String
  ownerId : String
  status : String
  awardedBidId : Option String
deriving DecidableEq, Repr

/-- A bid row (payment-relevant fields of the `bids` table); `price` is the
decimal string of the `decimal(12,2)` column. -/
structure Bid where
  id : String
  projectId : String
  supplierId : String
  price : String
  status : String
deriving DecidableEq, Repr

/-- One record of a payment's `auditTrail` JSONB array.  The code builds these
as object literals; optional keys that a given entry omits are `none`, and
`details` is the nested object as key/value strings (numbers printed in
decimal).  `timestamp` is the state clock standing in for
`new Date().toISOString()`. -/
structure AuditEntry where
  action : String
  userId : Option String
  razorpayPaymentId : Option String
  verificationMethod : Option String
  timestamp : Nat
  details : List (String × String)
deriving DecidableEq, Repr

/-- A payment row of the `payments` table. -/
structure Payment where
  id : String
  razorpayOrderId : String
  razorpayPaymentId : Option String
  projectId : String
  bidId : String
  payerId : String
  payeeId : String
  amount : String
  currency : String
  status : String
  type : String
  webhookProcessed : Bool
  auditTrail : List AuditEntry
deriving DecidableEq, Repr

/-- The store (`MemStorage` maps, insertion order) together with the bits of
ambient state the payment routes consume: the external gateway's created
orders (to observe whether `razorpay.orders.create` was called), counters
standing in for `randomUUID`/gateway ids, and a clock tick. -/
structure St where
  users : List User
  projects : List Project
  bids : List Bid
  payments : List Payment
  gatewayOrders : List (String × ℤ × String)
  nextOrder : Nat
  nextPayment : Nat
  now : Nat
deriving DecidableEq, Repr

/-! ## Storage operations (`MemStorage`, `server/storage.ts`) -/

/-- `MemStorage.getUser`. -/
def getUser (st : St) (id : String) : Option User :=
  st.users.find? (fun u => u.id == id)

/-- `MemStorage.getProject`. -/
def getProject (st : St) (id : String) : Option Project :=
  st.projects.find? (fun p => p.id == id)

/-- `MemStorage.getBid`. -/
def getBid (st : St) (id : String) : Option Bid :=
  st.bids.find? (fun b => b.id == id)

/-- `MemStorage.getPaymentByRazorpayOrderId`: first payment (insertion order)
whose `razorpayOrderId` matches. -/
def getPaymentByRazorpayOrderId (st : St) (orderId : String) : Option Payment :=
  st.payments.find? (fun p => p.razorpayOrderId == orderId)

/-- `MemStorage.getPayment`. -/
def getPayment (st : St) (id : String) : Option Payment :=
  st.payments.find? (fun p => p.id == id)

/-- `MemStorage.getPaymentsForProject`. -/
def getPaymentsForProject (st : St) (projectId : String) : List Payment :=
  st.payments.filter (fun p => p.projectId == projectId)

/-- `MemStorage.updateBid` restricted to the one update the payment routes
perform (`\x7b status \x7d`): `Map.set` on an existing key keeps its position. -/
def updateBidStatus (st : St) (id status : String) : St :=
  { st with bids := st.bids.map (fun b => if b.id == id then { b with status } else b) }

/-- `MemStorage.updateProject` restricted to the award update
(`\x7b status, awardedBidId \x7d`). -/
def updateProjectAward (st : St) (id status : String) (awardedBidId : Option String) : St :=
  { st with projects := st.projects.map (fun p =>
      if p.id == id then { p with status, awardedBidId } else p) }

/-- `MemStorage.updatePaymentStatus(id, status, razorpayPaymentId?, auditEntry?)`:
sets the status, keeps the old `razorpayPaymentId` when the argument is absent
or falsy (`razorpayPaymentId || payment.razorpayPaymentId`), and — when an
audit entry is supplied — appends it, stamped with the current time, to the
existing trail.  Returns the updated row (or `none` when the id is unknown)
and the new store. -/
def updatePaymentStatus (st : St) (id status : String)
    (razorpayPaymentId : Option String) (auditEntry : Option AuditEntry) :
    Option Payment × St :=
  match getPayment st id with
  | none => (none, st)
  | some p =>
    let newRzp := match razorpayPaymentId with
      | some s => if s = "" then p.razorpayPaymentId else some s
      | none => p.razorpayPaymentId
    let newTrail := match auditEntry with
      | some e => p.auditTrail ++ [{ e with timestamp := st.now }]
      | none => p.auditTrail
    let p' : Payment := { p with status, razorpayPaymentId := newRzp, auditTrail := newTrail }
    (some p', { st with payments := st.payments.map (fun q => if q.id == id then p' else q) })

/-- `MemStorage.markWebhookProcessed`. -/
def markWebhookProcessed (st : St) (id : String) : St :=
  match getPayment st id with
  | none => st
  | some p =>
    let p' : Payment := { p with webhookProcessed := true }
    { st with payments := st.payments.map (fun q => if q.id == id then p' else q) }

/-- `MemStorage.createPayment`: fresh id, spreads the insert object but then
forces `webhookProcessed := false` and `auditTrail := []` (the literal fields
written after the spread override whatever the caller passed). -/
def createPayment (st : St) (razorpayOrderId projectId bidId payerId payeeId
    amount currency status type : String) : Payment × St :=
  let p : Payment :=
    { id := "pay_" ++ toString st.nextPayment
      razorpayOrderId, razorpayPaymentId := none
      projectId, bidId, payerId, payeeId, amount, currency, status, type
      webhookProcessed := false
      auditTrail := [] }
  (p, { st with payments := st.payments ++ [p], nextPayment := st.nextPayment + 1 })

/-- The `DatabaseStorage.updatePaymentStatus` variant computes the row update
from the current row; this is its effect on a single payment row (the
`updateData` object applied by `db.update`): status always set,
`razorpayPaymentId` only when truthy, `auditTrail` replaced by the old trail
with the stamped entry appended only when an entry is supplied. -/
def dbUpdatePaymentRow (p : Payment) (status : String)
    (razorpayPaymentId : Option String) (auditEntry : Option AuditEntry)
    (now : Nat) : Payment :=
  let p1 : Payment := { p with status }
  let p2 : Payment := match razorpayPaymentId with
    | some s => if s = "" then p1 else { p1 with razorpayPaymentId := some s }
    | none => p1
  match auditEntry with
  | some e => { p2 with auditTrail := p.auditTrail ++ [{ e with timestamp := now }] }
  | none => p2

/-! ## Signature verification (`verifyRazorpaySignature` / `verifyWebhookSignature`,
`server/routes.ts`) -/

/-- Value of a hexadecimal digit character, `none` for non-hex. -/
def hexVal (c : Char) : Option Nat :=
  if '0' ≤ c && c ≤ '9' then some (c.toNat - 48)
  else if 'a' ≤ c && c ≤ 'f' then some (c.toNat - 87)
  else if 'A' ≤ c && c ≤ 'F' then some (c.toNat - 55)
  else none

/-- Node's `Buffer.from(s, 'hex')`: decodes pairs of hex digits into bytes and
truncates at the first incomplete or invalid pair. -/
def hexDecode : List Char → List Nat
  | c1 :: c2 :: rest =>
    match hexVal c1, hexVal c2 with
    | some hi, some lo => (16 * hi + lo) :: hexDecode rest
    | _, _ => []
  | _ => []

/-- Node's `crypto.timingSafeEqual`: compares two byte buffers, but throws a
`RangeError` when their lengths differ. -/
def timingSafeEqual (a b : List Nat) : Except String Bool :=
  if a.length = b.length then .ok (a == b) else .error "RangeError"

/-- `verifyRazorpaySignature(orderId, paymentId, signature, secret)`: HMAC of
`orderId + "|" + paymentId`, hex-compared to `signature` via
`timingSafeEqual` on the hex-decoded buffers.  An `Except.error` is a thrown
exception escaping the function. -/
def verifyRazorpaySignature (hmacHex : String → String → String)
    (orderId paymentId signature secret : String) : Except String Bool :=
  let body := orderId ++ "|" ++ paymentId
  let expectedSignature := hmacHex secret body
  timingSafeEqual (hexDecode signature.data) (hexDecode expectedSignature.data)

/-- `verifyWebhookSignature(body, signature, secret)`. -/
def verifyWebhookSignature (hmacHex : String → String → String)
    (body signature secret : String) : Except String Bool :=
  timingSafeEqual (hexDecode signature.data) (hexDecode (hmacHex secret body).data)

/-! ## JSON (`express.json()` body parsing and `JSON.stringify`) -/

/-- JSON values, restricted to the fragment the webhook payloads use:
objects, strings (without escape sequences) and integers. -/
inductive Json where
  | str : String → Json
  | num : Int → Json
  | obj : List (String × Json) → Json

/-- Skip JSON whitespace. -/
def jsonWs (l : List Char) : List Char :=
  l.dropWhile (fun c => c = ' ' || c = '\n' || c = '\t' || c = '\r')

/-- Read a string literal body up to the closing quote (no escapes). -/
def readStrBody : List Char → Option (String × List Char)
  | [] => none
  | c :: rest =>
    if c = '"' then some ("", rest)
    else if c = '\\' then none
    else (readStrBody rest).map (fun r => (String.mk [c] ++ r.1, r.2))

mutual

/-- Fuel-indexed recursive-descent JSON value reader. -/
def readJsonValue : Nat → List Char → Option (Json × List Char)
  | 0, _ => none
  | fuel + 1, l =>
    match jsonWs l with
    | '"' :: rest => (readStrBody rest).map (fun r => (Json.str r.1, r.2))
    | '\x7b' :: rest =>
      match jsonWs rest with
      | '\x7d' :: rest2 => some (Json.obj [], rest2)
      | rest2 => (readJsonMembers fuel rest2).map (fun r => (Json.obj r.1, r.2))
    | c :: rest =>
      if c.isDigit then
        let digits := c :: rest.takeWhile (·.isDigit)
        some (Json.num (natOfDigits digits : Int), rest.dropWhile (·.isDigit))
      else none
    | [] => none

/-- Reads `"key": value` members separated by commas, up to the closing brace. -/
def readJsonMembers : Nat → List Char → Option (List (String × Json) × List Char)
  | 0, _ => none
  | fuel + 1, l =>
    match jsonWs l with
    | '"' :: rest =>
      match readStrBody rest with
      | none => none
      | some (key, rest2) =>
        match jsonWs rest2 with
        | ':' :: rest3 =>
          match readJsonValue fuel rest3 with
          | none => none
          | some (v, rest4) =>
            match jsonWs rest4 with
            | ',' :: rest5 =>
              (readJsonMembers fuel rest5).map (fun r => ((key, v) :: r.1, r.2))
            | '\x7d' :: rest5 => some ([(key, v)], rest5)
            | _ => none
        | _ => none
    | _ => none

end

/-- `JSON.parse` (the express body parser) on the modelled fragment: the whole
input must be one JSON value, possibly surrounded by whitespace. -/
def parseJson (s : String) : Option Json :=
  match readJsonValue (s.length + 1) s.data with
  | some (v, rest) => if jsonWs rest = [] then some v else none
  | none => none

mutual

/-- `JSON.stringify`: minimal serialization without any whitespace. -/
def stringifyJson : Json → String
  | .str s => "\"" ++ s ++ "\""
  | .num n => toString n
  | .obj ms => "\x7b" ++ stringifyMembers ms ++ "\x7d"

/-- Comma-separated `"key":value` members of an object. -/
def stringifyMembers : List (String × Json) → String
  | [] => ""
  | [kv] => "\"" ++ kv.1 ++ "\":" ++ stringifyJson kv.2
  | kv :: rest => "\"" ++ kv.1 ++ "\":" ++ stringifyJson kv.2 ++ "," ++ stringifyMembers rest

end

/-- Object member lookup (first occurrence), `none` on non-objects. -/
def jGet (j : Json) (k : String) : Option Json :=
  match j with
  | .obj ms => (ms.find? (fun kv => kv.1 == k)).map (·.2)
  | _ => none

/-- The `payload.payment.entity` object of `webhookEventSchema`. -/
structure WebhookEntity where
  id : String
  orderId : String
  status : String
  amount : Int
  currency : String
deriving DecidableEq, Repr

/-- A validated webhook event (`webhookEventSchema`, `shared/schema.ts`):
`event` a non-empty string and the nested payment entity. -/
structure WebhookEvent where
  event : String
  entity : WebhookEntity
deriving DecidableEq, Repr

/-- Zod validation `webhookEventSchema.parse`: extracts and type-checks
`event` and `payload.payment.entity.\x7bid, order_id, status, amount, currency\x7d`;
unknown extra keys are ignored, as Zod does by default. -/
def parseWebhookEvent (j : Json) : Option WebhookEvent := do
  let Json.str ev ← jGet j "event" | none
  if ev.length < 1 then none else
  let some payload ← pure (jGet j "payload") | none
  let some payment ← pure (jGet payload "payment") | none
  let some entity ← pure (jGet payment "entity") | none
  let Json.str id ← jGet entity "id" | none
  let Json.str orderId ← jGet entity "order_id" | none
  let Json.str status ← jGet entity "status" | none
  let Json.num amount ← jGet entity "amount" | none
  let Json.str currency ← jGet entity "currency" | none
  some { event := ev, entity := { id, orderId, status, amount, currency } }

/-! ## Route handlers (`server/routes.ts`)

Each handler is modelled after its Zod body validation succeeded (Zod
failures answer 400 before any of the modelled logic runs); the Zod
constraints themselves appear as the predicate `validCreateOrderReq` where a
claim needs them.  Entity ids are opaque strings (their uuid-format check
constrains only the spelling of ids). -/

/-- Zod `createPaymentOrderSchema` constraints on an already-parsed body:
the amount regex and the two enums (`type`, `currency`). -/
def validCreateOrderReq (amount type currency : String) : Bool :=
  isAmountStr amount &&
    (type = "escrow" || type = "direct" || type = "partial") &&
    currency = "INR"

/-- Outcome of `POST /api/payments/create-order`, in source order of the
early returns. -/
inductive CreateOrderRes where
  | notFoundBid
  | notFoundProject
  | bidProjectMismatch
  | forbiddenNotOwner
  | bidNotPending
  | amountMismatch
  | supplierNotFound
  | duplicatePayment
  | success (orderId : String) (orderAmount : ℤ) (currency : String) (paymentId : String)
deriving DecidableEq, Repr

/-- `POST /api/payments/create-order` (`server/routes.ts`): relationship and
authorization checks, `parseFloat` amount comparison, duplicate-payment scan,
gateway order creation (recorded in `gatewayOrders`), then the local Payment
row in state `created`.  `MemStorage.createPayment` discards the audit-trail
literal the route passes, so the stored row starts with an empty trail. -/
def createOrder (st : St) (userId bidId projectId amount type currency : String) :
    CreateOrderRes × St :=
  match getBid st bidId with
  | none => (.notFoundBid, st)
  | some bid =>
    match getProject st projectId with
    | none => (.notFoundProject, st)
    | some project =>
      if bid.projectId ≠ projectId then (.bidProjectMismatch, st)
      else if project.ownerId ≠ userId then (.forbiddenNotOwner, st)
      else if bid.status ≠ "pending" then (.bidNotPending, st)
      else
        match jsParseFloat amount, jsParseFloat (jsOrStr (some bid.price) "0") with
        | some a, some b =>
          if !(qEq a b) then (.amountMismatch, st)
          else
            match getUser st bid.supplierId with
            | none => (.supplierNotFound, st)
            | some _ =>
              match (getPaymentsForProject st projectId).find?
                  (fun p => p.bidId == bidId && p.status != "failed") with
              | some _ => (.duplicatePayment, st)
              | none =>
                let orderAmount : ℤ := jsRound (floatMul a ⟨100, 1⟩)
                let orderId := "order_" ++ toString st.nextOrder
                let st1 : St := { st with
                  gatewayOrders := st.gatewayOrders ++ [(orderId, orderAmount, currency)]
                  nextOrder := st.nextOrder + 1 }
                let (payment, st2) := createPayment st1 orderId projectId bidId
                  userId bid.supplierId amount currency "created" type
                (.success orderId orderAmount currency payment.id, st2)
        | _, _ => (.amountMismatch, st)

/-- Outcome of `POST /api/payments/verify`.  `internalError` is the outer
`catch` answering 500 — in particular when `verifyRazorpaySignature` throws. -/
inductive VerifyRes where
  | notFoundPayment
  | forbiddenNotPayer
  | alreadyVerified
  | internalError
  | invalidSignature
  | notFoundAssoc
  | forbiddenOwnership
  | integrityError
  | success (paymentId : String)
deriving DecidableEq, Repr

/-- `POST /api/payments/verify` (`server/routes.ts`): look up the payment by
gateway order id, authorize the payer, short-circuit when already `paid`,
verify the `orderId|paymentId` signature, re-fetch and cross-check bid and
project, then mark the payment `paid` (with a `payment_verified` audit entry)
and perform the award transition on bid and project. -/
def verifyPayment (hmacHex : String → String → String) (st : St)
    (userId orderId paymentId signature keySecret : String) : VerifyRes × St :=
  match getPaymentByRazorpayOrderId st orderId with
  | none => (.notFoundPayment, st)
  | some payment =>
    if payment.payerId ≠ userId then (.forbiddenNotPayer, st)
    else if payment.status = "paid" then (.alreadyVerified, st)
    else
      match verifyRazorpaySignature hmacHex orderId paymentId signature keySecret with
      | .error _ => (.internalError, st)
      | .ok false => (.invalidSignature, st)
      | .ok true =>
        match getBid st payment.bidId, getProject st payment.projectId with
        | some bid, some project =>
          if project.ownerId ≠ userId then (.forbiddenOwnership, st)
          else if bid.projectId ≠ payment.projectId then (.integrityError, st)
          else
            let auditEntry : AuditEntry :=
              { action := "payment_verified"
                userId := some userId
                razorpayPaymentId := some paymentId
                verificationMethod := some "frontend"
                timestamp := 0
                details := [("orderId", orderId)] }
            let (_, st1) := updatePaymentStatus st payment.id "paid"
              (some paymentId) (some auditEntry)
            let st2 := updateBidStatus st1 payment.bidId "accepted"
            let st3 := updateProjectAward st2 payment.projectId "awarded" (some payment.bidId)
            (.success payment.id, st3)
        | _, _ => (.notFoundAssoc, st)

/-- Outcome of `POST /api/payments/webhook`.  `badJsonBody` stands for the
`express.json()` body parser rejecting the request before the handler runs;
`internalError` is the handler's outer `catch` (500), reached in particular
when `verifyWebhookSignature` throws. -/
inductive WebhookRes where
  | badJsonBody
  | missingSignature
  | internalError
  | invalidSignature
  | invalidStructure
  | ignored
  | alreadyProcessed
  | amountMismatch
  | statusOk
deriving DecidableEq, Repr

/-- `POST /api/payments/webhook` (`server/routes.ts`).  The signature is
verified over `JSON.stringify(req.body)` — the re-serialization of the parsed
body, not the raw request bytes.  `payment.captured` events re-check the
amount in paise, then mark the payment `paid` and `webhookProcessed` and run
the award transition; `payment.failed` events mark the payment `failed` and
`webhookProcessed` without touching bid or project; other events are
acknowledged without action. -/
def webhookHandler (hmacHex : String → String → String) (st : St)
    (sigHeader : Option String) (rawBody : String) (webhookSecret : String) :
    WebhookRes × St :=
  match sigHeader with
  | none => (.missingSignature, st)
  | some signature =>
    if signature = "" then (.missingSignature, st)
    else
      match parseJson rawBody with
      | none => (.badJsonBody, st)
      | some reqBody =>
        let body := stringifyJson reqBody
        match verifyWebhookSignature hmacHex body signature webhookSecret with
        | .error _ => (.internalError, st)
        | .ok false => (.invalidSignature, st)
        | .ok true =>
          match parseWebhookEvent reqBody with
          | none => (.invalidStructure, st)
          | some ev =>
            if ev.event = "payment.captured" then
              let paymentId := ev.entity.id
              let orderId := ev.entity.orderId
              let amount := ev.entity.amount
              let currency := ev.entity.currency
              match getPaymentByRazorpayOrderId st orderId with
              | none => (.ignored, st)
              | some payment =>
                if payment.webhookProcessed then (.alreadyProcessed, st)
                else
                  match jsParseFloat payment.amount with
                  | none => (.amountMismatch, st)
                  | some v =>
                    if amount ≠ jsRound (floatMul v ⟨100, 1⟩) then (.amountMismatch, st)
                    else
                      let auditEntry : AuditEntry :=
                        { action := "webhook_payment_captured"
                          userId := none
                          razorpayPaymentId := some paymentId
                          verificationMethod := some "webhook"
                          timestamp := 0
                          details := [("orderId", orderId), ("amount", toString amount),
                            ("currency", currency)] }
                      let (_, st1) := updatePaymentStatus st payment.id "paid"
                        (some paymentId) (some auditEntry)
                      let st2 := markWebhookProcessed st1 payment.id
                      let st3 := updateBidStatus st2 payment.bidId "accepted"
                      let st4 := updateProjectAward st3 payment.projectId "awarded"
                        (some payment.bidId)
                      (.statusOk, st4)
            else if ev.event = "payment.failed" then
              let orderId := ev.entity.orderId
              match getPaymentByRazorpayOrderId st orderId with
              | some payment =>
                if payment.webhookProcessed then (.statusOk, st)
                else
                  let auditEntry : AuditEntry :=
                    { action := "webhook_payment_failed"
                      userId := none
                      razorpayPaymentId := none
                      verificationMethod := some "webhook"
                      timestamp := 0
                      details := [("orderId", orderId), ("reason", "payment_failed_webhook")] }
                  let (_, st1) := updatePaymentStatus st payment.id "failed"
                    none (some auditEntry)
                  let st2 := markWebhookProcessed st1 payment.id
                  (.statusOk, st2)
              | none => (.statusOk, st)
            else (.statusOk, st)

/-- The part of the webhook handler that chooses the message handed to the
Signature Verifier: `JSON.stringify(req.body)` where `req.body` is the parsed
raw body. -/
def webhookSigMessage (rawBody : String) : Option String :=
  (parseJson rawBody).map stringifyJson

/-- Outcome of `POST /api/bids/:bidId/award`. -/
inductive AwardRes where
  | notFoundBid
  | unauthorized
  | success
deriving DecidableEq, Repr

/-- `POST /api/bids/:bidId/award` (`server/routes.ts`): the manual award
endpoint.  After the bid lookup and the project-ownership check it
unconditionally sets the bid `accepted` and the project
`awarded`/`awardedBidId` — there is no check that the bid is `pending` or
that the project is not already awarded. -/
def awardBidEndpoint (st : St) (userId bidId : String) : AwardRes × St :=
  match getBid st bidId with
  | none => (.notFoundBid, st)
  | some bid =>
    match getProject st bid.projectId with
    | none => (.unauthorized, st)
    | some project =>
      if project.ownerId ≠ userId then (.unauthorized, st)
      else
        let st1 := updateBidStatus st bidId "accepted"
        let st2 := updateProjectAward st1 bid.projectId "awarded" (some bidId)
        (.success, st2)

/-! ## Concrete scenario data

A minimal populated store mirroring the spec's §8 scenario: one company
owner, one supplier, one open project with one pending bid priced
`"5000.00"`, and a stand-in HMAC whose digests are 64 hex characters (the
only property of HMAC-SHA256 hex output the routes rely on). -/

/-- A 64-hex-character digest value used as the stand-in HMAC output and as a
matching signature. -/
def sigConst : String := String.mk (List.replicate 64 'a')

/-- A stand-in keyed-hash function with 64-hex-character output. -/
def hmacConst : String → String → String := fun _ _ => sigConst

/-- Base store: owner `u-owner`, supplier `u-sup`, open project `proj-1`,
pending bid `bid-1` priced `"5000.00"`. -/
def baseSt : St :=
  { users := [{ id := "u-owner", role := "company" }, { id := "u-sup", role := "supplier" }]
    projects := [{ id := "proj-1", ownerId := "u-owner", status := "open", awardedBidId := none }]
    bids := [{ id := "bid-1", projectId := "proj-1", supplierId := "u-sup",
               price := "5000.00", status := "pending" }]
    payments := []
    gatewayOrders := []
    nextOrder := 0
    nextPayment := 0
    now := 7 }

/-- Raw webhook body of a `payment.captured` event for `order_0` with amount
`500000` paise, serialized without whitespace (so it round-trips through
`JSON.stringify`). -/
def rawCaptured : String :=
  "\x7b\"event\":\"payment.captured\",\"payload\":\x7b\"payment\":\x7b\"entity\":" ++
  "\x7b\"id\":\"rzp1\",\"order_id\":\"order_0\",\"status\":\"captured\"," ++
  "\"amount\":500000,\"currency\":\"INR\"\x7d\x7d\x7d\x7d"

/-- The same `payment.captured` event as `rawCaptured`, but serialized with a
leading space inside the object — a byte sequence a gateway may legitimately
sign, which parses to the same JSON value. -/
def rawCapturedSpaced : String :=
  "\x7b \"event\":\"payment.captured\",\"payload\":\x7b\"payment\":\x7b\"entity\":" ++
  "\x7b\"id\":\"rzp1\",\"order_id\":\"order_0\",\"status\":\"captured\"," ++
  "\"amount\":500000,\"currency\":\"INR\"\x7d\x7d\x7d\x7d"

/-- Raw webhook body of a `payment.failed` event for `order_0`. -/
def rawFailed : String :=
  "\x7b\"event\":\"payment.failed\",\"payload\":\x7b\"payment\":\x7b\"entity\":" ++
  "\x7b\"id\":\"rzp1\",\"order_id\":\"order_0\",\"status\":\"failed\"," ++
  "\"amount\":500000,\"currency\":\"INR\"\x7d\x7d\x7d\x7d"

/-- Store after the owner successfully creates the order for `bid-1`
(payment `pay_0`, gateway order `order_0`, status `created`). -/
def stAfterOrder : St :=
  (createOrder baseSt "u-owner" "bid-1" "proj-1" "5000.00" "escrow" "INR").2

/-- Store after the client-confirmation path verifies `order_0` (payment
`paid`, bid `accepted`, project `awarded`; `webhookProcessed` still false). -/
def stAfterVerify : St :=
  (verifyPayment hmacConst stAfterOrder "u-owner" "order_0" "rzp1" sigConst "sec").2

/-- Store after the `payment.failed` webhook processed `order_0` (payment
`failed`, `webhookProcessed` true). -/
def stAfterFailed : St :=
  (webhookHandler hmacConst stAfterOrder (some sigConst) rawFailed "sec").2

/-- Base store, with the bid priced `"9007199254740993"` — a decimal the
`decimal(12,2)` column type would not admit but the in-memory store accepts
unchecked, and whose binary64 rounding collides with `"9007199254740992"`. -/
def tamperSt : St :=
  { baseSt with
    bids := [{ id := "bid-1", projectId := "proj-1", supplierId := "u-sup",
               price := "9007199254740993", status := "pending" }] }

/-- Base store, with the project already awarded to a second bid `bid-2` and
`bid-1` already `rejected` — exercising the award endpoint's missing
preconditions. -/
def alreadyAwardedSt : St :=
  { baseSt with
    projects := [{ id := "proj-1", ownerId := "u-owner", status := "awarded",
                   awardedBidId := some "bid-2" }]
    bids := [{ id := "bid-1", projectId := "proj-1", supplierId := "u-sup",
               price := "5000.00", status := "rejected" },
             { id := "bid-2", projectId := "proj-1", supplierId := "u-sup",
               price := "1.00", status := "accepted" }] }

/-! ## Helper lemmas -/

/-- `find?` commutes with a `map` whose function does not change the
predicate's verdict on any list element — the shape of every
`Map.set`-style row update. -/
theorem find?_map_comm {α : Type} (f : α → α) (p : α → Bool) (l : List α)
    (hp : ∀ a ∈ l, p (f a) = p a) :
    (l.map f).find? p = (l.find? p).map f := by
  induction l with
  | nil => rfl
  | cons a t ih =>
    simp only [List.map_cons, List.find?_cons, hp a (List.mem_cons_self a t)]
    cases h : p a with
    | true => simp
    | false => simpa using ih (fun x hx => hp x (List.mem_cons_of_mem a hx))

/-! ## Claims -/

set_option maxRecDepth 100000

/-- C1: refuted on the code — after a successful client confirmation for
`order_0` (which marks the payment `paid` but leaves `webhookProcessed`
false), the `payment.captured` webhook for the same order does not
short-circuit: its idempotency check reads only `webhookProcessed`, so it
answers `ok` (not `already_processed`) and re-runs the Award Transition,
appending a second audit entry to the payment. -/
theorem c1_webhook_after_verify_reruns_award :
    (verifyPayment hmacConst stAfterOrder "u-owner" "order_0" "rzp1" sigConst "sec").1
        = VerifyRes.success "pay_0" ∧
    ((getPaymentByRazorpayOrderId stAfterVerify "order_0").map
        (fun p => (p.status, p.webhookProcessed))) = some ("paid", false) ∧
    (webhookHandler hmacConst stAfterVerify (some sigConst) rawCaptured "sec").1
        = WebhookRes.statusOk ∧
    ((webhookHandler hmacConst stAfterVerify (some sigConst) rawCaptured "sec").2.payments.map
        (fun p => p.auditTrail.map (fun e => e.action)))
        = [["payment_verified", "webhook_payment_captured"]] :=
  ⟨by decide, by decide, by decide, by decide⟩

/-- C2: refuted on the code — the webhook handler hands the Signature
Verifier `JSON.stringify(req.body)`, the re-serialization of the parsed
body: a raw body that differs from its round-trip only by one interior
space is verified against the round-tripped string, not against the raw
bytes the gateway signed. -/
theorem c2_webhook_signature_message_reserialized :
    webhookSigMessage rawCapturedSpaced = some rawCaptured ∧
    rawCapturedSpaced ≠ rawCaptured :=
  ⟨by decide, by decide⟩

/-- C3: refuted on the code — when the supplied signature hex-decodes to a
buffer whose length differs from the 32-byte HMAC digest (wrong-length or
non-hex signatures), `crypto.timingSafeEqual` throws a `RangeError`; the
exception escapes `verifyRazorpaySignature` instead of the caller receiving
`false`. -/
theorem c3_malformed_signature_throws
    (hmacHex : String → String → String)
    (hlen : ∀ s m, (hexDecode (hmacHex s m).data).length = 32)
    (orderId paymentId sig secret : String)
    (hsig : (hexDecode sig.data).length ≠ 32) :
    verifyRazorpaySignature hmacHex orderId paymentId sig secret = .error "RangeError" := by
  unfold verifyRazorpaySignature timingSafeEqual
  simp only [hlen]
  rw [if_neg hsig]

/-- C3 witness: the eight-hex-character signature `"deadbeef"` (4 bytes
against the 32-byte digest) makes the verifier throw. -/
theorem c3_malformed_signature_throws_witness :
    verifyRazorpaySignature hmacConst "order_0" "rzp1" "deadbeef" "sec"
      = .error "RangeError" := by
  have h := fun (s m : String) => (by decide : (hexDecode sigConst.data).length = 32)
  exact c3_malformed_signature_throws hmacConst h "order_0" "rzp1" "deadbeef" "sec" (by decide)

/-- C4 counterexample: with the bid priced `"9007199254740993"`, the
schema-valid request amount `"9007199254740992"` denotes a different decimal
value, yet `parseFloat` rounds both to the same binary64 value (2^53), so
the order-creation request succeeds and a Payment row is persisted instead
of `Conflict:AmountMismatch`. -/
theorem c4_float_rounding_accepts_distinct_decimal :
    decValue "9007199254740992" = some ⟨9007199254740992, 1⟩ ∧
    decValue "9007199254740993" = some ⟨9007199254740993, 1⟩ ∧
    qEq ⟨9007199254740992, 1⟩ ⟨9007199254740993, 1⟩ = false ∧
    (getBid tamperSt "bid-1").map Bid.price = some "9007199254740993" ∧
    validCreateOrderReq "9007199254740992" "escrow" "INR" = true ∧
    (createOrder tamperSt "u-owner" "bid-1" "proj-1" "9007199254740992" "escrow" "INR").1
        = CreateOrderRes.success "order_0" 900719925474099200 "INR" "pay_0" ∧
    ((createOrder tamperSt "u-owner" "bid-1" "proj-1" "9007199254740992" "escrow" "INR").2.payments.map
        (fun p => (p.bidId, p.amount, p.status)))
        = [("bid-1", "9007199254740992", "created")] :=
  ⟨by decide, by decide, by decide, by decide, by decide, by decide, by decide⟩

/-- C4 (amended): `createOrder` compares the requested amount to the bid's
price as IEEE-754 binary64 values obtained through `parseFloat`; for every
order-creation request (that reaches the amount check) whose amount differs
from the bid price as a parsed double — including every NaN case — the
request is rejected with `Conflict:AmountMismatch` and the store is
unchanged: no Payment row is created and no gateway order is placed.
(Amounts that are decimal-distinct but round to the same double, possible
only beyond 15 significant digits, are accepted — see the counterexample.) -/
theorem c4_amended_double_mismatch_rejected
    (st : St) (user bidId projectId amount type currency : String)
    (bid : Bid) (project : Project)
    (hb : getBid st bidId = some bid)
    (hp : getProject st projectId = some project)
    (hbp : bid.projectId = projectId)
    (how : project.ownerId = user)
    (hpend : bid.status = "pending")
    (hne : floatNe (jsParseFloat amount) (jsParseFloat (jsOrStr (some bid.price) "0")) = true) :
    createOrder st user bidId projectId amount type currency = (.amountMismatch, st) := by
  simp only [createOrder, hb, hp]
  simp only [hbp, how, hpend, ne_eq, not_true_eq_false, if_false]
  rcases h1 : jsParseFloat amount with _ | a <;>
    rcases h2 : jsParseFloat (jsOrStr (some bid.price) "0") with _ | b
  all_goals simp only [floatNe, h1, h2] at hne ⊢
  all_goals simp [hne]

/-- C4 amended-claim witness: amount `"5000.01"` against the price
`"5000.00"` is rejected with the store untouched. -/
theorem c4_amended_double_mismatch_rejected_witness :
    createOrder baseSt "u-owner" "bid-1" "proj-1" "5000.01" "escrow" "INR"
      = (.amountMismatch, baseSt) :=
  c4_amended_double_mismatch_rejected baseSt "u-owner" "bid-1" "proj-1" "5000.01" "escrow" "INR"
    { id := "bid-1", projectId := "proj-1", supplierId := "u-sup",
      price := "5000.00", status := "pending" }
    { id := "proj-1", ownerId := "u-owner", status := "open", awardedBidId := none }
    (by decide) (by decide) rfl rfl rfl (by decide)

/-- C5: confirmed — for an order-creation request that reaches the
duplicate-payment scan (bid and project found and matching, requester the
owner, bid pending, amounts parseFloat-equal, supplier known): if a Payment
for that bid exists with a status other than `failed`, the request answers
`Conflict:DuplicatePayment` and the store is unchanged; if every Payment for
that bid is `failed`, the request succeeds and appends a fresh Payment row
in state `created` for that bid. -/
theorem c5_duplicate_payment_prevention
    (st : St) (user bidId projectId amount type currency : String)
    (bid : Bid) (project : Project)
    (hb : getBid st bidId = some bid)
    (hp : getProject st projectId = some project)
    (hbp : bid.projectId = projectId)
    (how : project.ownerId = user)
    (hpend : bid.status = "pending")
    (hne : floatNe (jsParseFloat amount) (jsParseFloat (jsOrStr (some bid.price) "0")) = false)
    (hsup : (getUser st bid.supplierId).isSome) :
    ((∃ p ∈ st.payments, p.projectId = projectId ∧ p.bidId = bidId ∧ p.status ≠ "failed") →
        createOrder st user bidId projectId amount type currency = (.duplicatePayment, st)) ∧
    ((∀ p ∈ st.payments, p.projectId = projectId → p.bidId = bidId → p.status = "failed") →
        ∃ oid amt pay,
          (createOrder st user bidId projectId amount type currency).1
              = CreateOrderRes.success oid amt currency pay.id ∧
          (createOrder st user bidId projectId amount type currency).2.payments
              = st.payments ++ [pay] ∧
          pay.bidId = bidId ∧ pay.status = "created" ∧ pay.razorpayOrderId = oid) := by
  obtain ⟨supplier, hu⟩ := Option.isSome_iff_exists.mp hsup
  rcases ha : jsParseFloat amount with _ | a
  · rw [ha] at hne; simp [floatNe] at hne
  rcases hpr : jsParseFloat (jsOrStr (some bid.price) "0") with _ | b
  · rw [ha, hpr] at hne; simp [floatNe] at hne
  rw [ha, hpr] at hne
  simp only [floatNe, Bool.not_eq_false'] at hne
  constructor
  · rintro ⟨p, hpmem, hpproj, hpbid, hpst⟩
    have hfind : (((getPaymentsForProject st projectId).find?
        (fun p => p.bidId == bidId && p.status != "failed"))).isSome := by
      rw [List.find?_isSome]
      refine ⟨p, List.mem_filter.mpr ⟨hpmem, by simp [hpproj]⟩, by simp [hpbid, hpst]⟩
    obtain ⟨q, hq⟩ := Option.isSome_iff_exists.mp hfind
    simp [createOrder, hb, hp, hbp, how, hpend, ha, hpr, hne, hu, hq]
  · intro hall
    have hfind : ((getPaymentsForProject st projectId).find?
        (fun p => p.bidId == bidId && p.status != "failed")) = none := by
      rw [List.find?_eq_none]
      intro x hx hpred
      obtain ⟨hxmem, hxproj⟩ := List.mem_filter.mp hx
      obtain ⟨h1, h2⟩ := (Bool.and_eq_true _ _).mp hpred
      have hxbid : x.bidId = bidId := by simpa using h1
      have : x.status = "failed" := hall x hxmem (by simpa using hxproj) hxbid
      simp [this] at h2
    refine ⟨"order_" ++ toString st.nextOrder, jsRound (floatMul a ⟨100, 1⟩),
      { id := "pay_" ++ toString st.nextPayment
        razorpayOrderId := "order_" ++ toString st.nextOrder
        razorpayPaymentId := none, projectId := projectId, bidId := bidId
        payerId := user, payeeId := bid.supplierId, amount := amount
        currency := currency, status := "created", type := type
        webhookProcessed := false, auditTrail := [] }, ?_, ?_, rfl, rfl, rfl⟩ <;>
      simp [createOrder, hb, hp, hbp, how, hpend, ha, hpr, hne, hu, hfind, createPayment]

/-- C5 witness: in the scenario store holding the `created` payment for
`bid-1`, a second identical order-creation call answers
`Conflict:DuplicatePayment` and leaves the store unchanged; after the
`payment.failed` webhook, the same call succeeds again. -/
theorem c5_duplicate_payment_prevention_witness :
    createOrder stAfterOrder "u-owner" "bid-1" "proj-1" "5000.00" "escrow" "INR"
        = (.duplicatePayment, stAfterOrder) ∧
    (createOrder stAfterFailed "u-owner" "bid-1" "proj-1" "5000.00" "escrow" "INR").1
        = CreateOrderRes.success "order_1" 500000 "INR" "pay_1" := by
  constructor
  · exact (c5_duplicate_payment_prevention stAfterOrder "u-owner" "bid-1" "proj-1"
      "5000.00" "escrow" "INR"
      { id := "bid-1", projectId := "proj-1", supplierId := "u-sup",
        price := "5000.00", status := "pending" }
      { id := "proj-1", ownerId := "u-owner", status := "open", awardedBidId := none }
      (by decide) (by decide) rfl rfl rfl (by decide) (by decide)).1
      ⟨{ id := "pay_0", razorpayOrderId := "order_0", razorpayPaymentId := none,
         projectId := "proj-1", bidId := "bid-1", payerId := "u-owner", payeeId := "u-sup",
         amount := "5000.00", currency := "INR", status := "created", type := "escrow",
         webhookProcessed := false, auditTrail := [] },
       by decide, by decide, by decide, by decide⟩
  · decide

/-- C6: confirmed — for a Payment with identical valid client-confirmation
arguments (payment found by order id, requester the payer, not yet paid,
valid signature, consistent bid/project rows with unique payment ids),
the first `verifyClientConfirmation` call succeeds and performs the Award
Transition, and the immediately repeated call short-circuits with
`Conflict:AlreadyVerified`, returning the store exactly as the first call
left it — one Award Transition in total. -/
theorem c6_verify_idempotent
    (hmacHex : String → String → String) (st : St)
    (user orderId paymentId signature secret : String)
    (payment : Payment) (bid : Bid) (project : Project)
    (hpay : getPaymentByRazorpayOrderId st orderId = some payment)
    (hid : getPayment st payment.id = some payment)
    (huniq : ∀ q ∈ st.payments, q.id = payment.id → q = payment)
    (hpayer : payment.payerId = user)
    (hnotpaid : payment.status ≠ "paid")
    (hsig : verifyRazorpaySignature hmacHex orderId paymentId signature secret = Except.ok true)
    (hbid : getBid st payment.bidId = some bid)
    (hproj : getProject st payment.projectId = some project)
    (hown : project.ownerId = user)
    (hbp : bid.projectId = payment.projectId) :
    (verifyPayment hmacHex st user orderId paymentId signature secret).1
        = VerifyRes.success payment.id ∧
    verifyPayment hmacHex
        (verifyPayment hmacHex st user orderId paymentId signature secret).2
        user orderId paymentId signature secret
      = (VerifyRes.alreadyVerified,
         (verifyPayment hmacHex st user orderId paymentId signature secret).2) := by
  have hres : (verifyPayment hmacHex st user orderId paymentId signature secret).1
      = VerifyRes.success payment.id := by
    simp [verifyPayment, hpay, hpayer, hnotpaid, hsig, hbid, hproj, hown, hbp, hid,
      updatePaymentStatus]
  refine ⟨hres, ?_⟩
  have hmap : (verifyPayment hmacHex st user orderId paymentId signature secret).2.payments
      = st.payments.map (fun q => if q.id == payment.id then
          { payment with
            status := "paid",
            razorpayPaymentId :=
              if paymentId = "" then payment.razorpayPaymentId else some paymentId,
            auditTrail := payment.auditTrail ++
              [{ action := "payment_verified", userId := some user,
                 razorpayPaymentId := some paymentId, verificationMethod := some "frontend",
                 timestamp := st.now, details := [("orderId", orderId)] }] }
          else q) := by
    simp [verifyPayment, hpay, hpayer, hnotpaid, hsig, hbid, hproj, hown, hbp, hid,
      updatePaymentStatus, updateBidStatus, updateProjectAward]
  have hfind2 : getPaymentByRazorpayOrderId
      (verifyPayment hmacHex st user orderId paymentId signature secret).2 orderId
      = some { payment with
          status := "paid",
          razorpayPaymentId :=
            if paymentId = "" then payment.razorpayPaymentId else some paymentId,
          auditTrail := payment.auditTrail ++
            [{ action := "payment_verified", userId := some user,
               razorpayPaymentId := some paymentId, verificationMethod := some "frontend",
               timestamp := st.now, details := [("orderId", orderId)] }] } := by
    rw [getPaymentByRazorpayOrderId, hmap]
    rw [find?_map_comm]
    · rw [getPaymentByRazorpayOrderId] at hpay
      rw [hpay]
      simp
    · intro q hq
      cases hqid : q.id == payment.id with
      | true =>
        have hq2 : q = payment := huniq q hq (by simpa using hqid)
        subst hq2
        simp
      | false => simp [hqid]
  generalize hgen : (verifyPayment hmacHex st user orderId paymentId signature secret).2 = st2
    at hfind2 ⊢
  simp [verifyPayment, hfind2, hpayer]

/-- C6 witness: verifying `order_0` twice in the scenario store — first call
succeeds, second answers `Conflict:AlreadyVerified` with the store
unchanged. -/
theorem c6_verify_idempotent_witness :
    (verifyPayment hmacConst stAfterOrder "u-owner" "order_0" "rzp1" sigConst "sec").1
        = VerifyRes.success "pay_0" ∧
    verifyPayment hmacConst stAfterVerify "u-owner" "order_0" "rzp1" sigConst "sec"
        = (VerifyRes.alreadyVerified, stAfterVerify) := by
  exact c6_verify_idempotent hmacConst stAfterOrder "u-owner" "order_0" "rzp1" sigConst "sec"
    { id := "pay_0", razorpayOrderId := "order_0", razorpayPaymentId := none,
      projectId := "proj-1", bidId := "bid-1", payerId := "u-owner", payeeId := "u-sup",
      amount := "5000.00", currency := "INR", status := "created", type := "escrow",
      webhookProcessed := false, auditTrail := [] }
    { id := "bid-1", projectId := "proj-1", supplierId := "u-sup",
      price := "5000.00", status := "pending" }
    { id := "proj-1", ownerId := "u-owner", status := "open", awardedBidId := none }
    (by decide) (by decide) (by decide) rfl (by decide) rfl (by decide) (by decide)
    rfl rfl


/-- C7: confirmed — an order-creation request whose bid and project exist and
match but whose requester is not the project owner is rejected with
`Forbidden` (the `project.ownerId == requester.id` check) and the store is
returned unchanged: no gateway order is recorded and no Payment row is
persisted.  No assumption is made about the amount, the bid status or the
rest of the payload. -/
theorem c7_non_owner_create_order_forbidden
    (st : St) (user bidId projectId amount type currency : String)
    (bid : Bid) (project : Project)
    (hb : getBid st bidId = some bid)
    (hp : getProject st projectId = some project)
    (hbp : bid.projectId = projectId)
    (hown : project.ownerId ≠ user) :
    createOrder st user bidId projectId amount type currency = (.forbiddenNotOwner, st) := by
  simp [createOrder, hb, hp, hbp, hown]

/-- C7 witness: the supplier (not the owner) calling order-creation for
`bid-1` with an arbitrary, even invalid, amount is rejected with `Forbidden`
and the store is untouched. -/
theorem c7_non_owner_create_order_forbidden_witness :
    createOrder baseSt "u-sup" "bid-1" "proj-1" "not-a-number" "direct" "INR"
      = (.forbiddenNotOwner, baseSt) :=
  c7_non_owner_create_order_forbidden baseSt "u-sup" "bid-1" "proj-1" "not-a-number"
    "direct" "INR"
    { id := "bid-1", projectId := "proj-1", supplierId := "u-sup",
      price := "5000.00", status := "pending" }
    { id := "proj-1", ownerId := "u-owner", status := "open", awardedBidId := none }
    (by decide) (by decide) rfl (by decide)

/-- C8: confirmed — a `payment.failed` webhook event whose order id matches a
Payment that is not yet `webhookProcessed` makes the handler set that
Payment's status to `failed`, set `webhookProcessed`, and append exactly one
`webhook_payment_failed` audit entry, while the `bids` and `projects` tables
are left untouched (the result state changes only the one payment row). -/
theorem c8_webhook_failed_updates_payment_only
    (hmacHex : String → String → String) (st : St)
    (signature rawBody secret : String) (j : Json) (ev : WebhookEvent) (payment : Payment)
    (hsg : signature ≠ "")
    (hparse : parseJson rawBody = some j)
    (hver : verifyWebhookSignature hmacHex (stringifyJson j) signature secret = Except.ok true)
    (hev : parseWebhookEvent j = some ev)
    (hevt : ev.event = "payment.failed")
    (hpay : getPaymentByRazorpayOrderId st ev.entity.orderId = some payment)
    (hid : getPayment st payment.id = some payment)
    (hnp : payment.webhookProcessed = false) :
    webhookHandler hmacHex st (some signature) rawBody secret
      = (WebhookRes.statusOk,
         { st with payments := st.payments.map (fun q => if q.id == payment.id then
             { payment with
               status := "failed",
               webhookProcessed := true,
               auditTrail := payment.auditTrail ++
                 [{ action := "webhook_payment_failed", userId := none,
                    razorpayPaymentId := none, verificationMethod := some "webhook",
                    timestamp := st.now,
                    details := [("orderId", ev.entity.orderId),
                      ("reason", "payment_failed_webhook")] }] }
             else q) }) := by
  have hupd : (updatePaymentStatus st payment.id "failed" none
      (some { action := "webhook_payment_failed", userId := none,
              razorpayPaymentId := none, verificationMethod := some "webhook",
              timestamp := 0,
              details := [("orderId", ev.entity.orderId),
                ("reason", "payment_failed_webhook")] })).2
      = { st with payments := st.payments.map (fun q => if q.id == payment.id then
          { payment with
            status := "failed",
            auditTrail := payment.auditTrail ++
              [{ action := "webhook_payment_failed", userId := none,
                 razorpayPaymentId := none, verificationMethod := some "webhook",
                 timestamp := st.now,
                 details := [("orderId", ev.entity.orderId),
                   ("reason", "payment_failed_webhook")] }] }
          else q) } := by
    simp [updatePaymentStatus, hid]
  have hfound2 : getPayment
      ({ st with payments := st.payments.map (fun q => if q.id == payment.id then
          { payment with
            status := "failed",
            auditTrail := payment.auditTrail ++
              [{ action := "webhook_payment_failed", userId := none,
                 razorpayPaymentId := none, verificationMethod := some "webhook",
                 timestamp := st.now,
                 details := [("orderId", ev.entity.orderId),
                   ("reason", "payment_failed_webhook")] }] }
          else q) } : St) payment.id
      = some { payment with
          status := "failed",
          auditTrail := payment.auditTrail ++
            [{ action := "webhook_payment_failed", userId := none,
               razorpayPaymentId := none, verificationMethod := some "webhook",
               timestamp := st.now,
               details := [("orderId", ev.entity.orderId),
                 ("reason", "payment_failed_webhook")] }] } := by
    simp only [getPayment]
    rw [find?_map_comm _ _ _ (by intro a _; cases ha : a.id == payment.id <;> simp [ha])]
    rw [show st.payments.find? (fun p => p.id == payment.id) = some payment from hid]
    simp
  simp only [webhookHandler, hparse, hver, hev, hevt]
  rw [if_neg hsg]
  rw [if_neg (by decide : ¬("payment.failed" = "payment.captured"))]
  simp only [if_true]
  simp only [hpay, hnp]
  rw [hupd]
  simp only [markWebhookProcessed, hfound2]
  simp only [Bool.false_eq_true, if_false]
  rw [Prod.mk.injEq]
  refine ⟨rfl, ?_⟩
  rw [St.mk.injEq]
  refine ⟨rfl, rfl, rfl, ?_, rfl, rfl, rfl, rfl⟩
  simp only [List.map_map]
  refine List.map_congr_left (fun q hq => ?_)
  cases hq2 : q.id == payment.id with
  | true => simp [Function.comp, hq2]
  | false => simp [Function.comp, hq2]

/-- C8 witness: the `payment.failed` webhook for `order_0` processed against
the scenario store — the payment row becomes `failed`/processed with one new
audit entry and everything else is unchanged. -/
theorem c8_webhook_failed_updates_payment_only_witness :
    webhookHandler hmacConst stAfterOrder (some sigConst) rawFailed "sec"
      = (WebhookRes.statusOk,
         { stAfterOrder with payments := stAfterOrder.payments.map (fun q =>
             if q.id == "pay_0" then
               { id := "pay_0", razorpayOrderId := "order_0", razorpayPaymentId := none,
                 projectId := "proj-1", bidId := "bid-1", payerId := "u-owner",
                 payeeId := "u-sup", amount := "5000.00", currency := "INR",
                 status := "failed", type := "escrow", webhookProcessed := true,
                 auditTrail := [{ action := "webhook_payment_failed", userId := none,
                                  razorpayPaymentId := none,
                                  verificationMethod := some "webhook",
                                  timestamp := 7,
                                  details := [("orderId", "order_0"),
                                    ("reason", "payment_failed_webhook")] }] }
             else q) }) := by
  exact c8_webhook_failed_updates_payment_only hmacConst stAfterOrder sigConst rawFailed "sec"
    (Json.obj [("event", Json.str "payment.failed"),
      ("payload", Json.obj [("payment", Json.obj [("entity", Json.obj
        [("id", Json.str "rzp1"), ("order_id", Json.str "order_0"),
         ("status", Json.str "failed"), ("amount", Json.num 500000),
         ("currency", Json.str "INR")])])])])
    { event := "payment.failed",
      entity := { id := "rzp1", orderId := "order_0", status := "failed",
                  amount := 500000, currency := "INR" } }
    { id := "pay_0", razorpayOrderId := "order_0", razorpayPaymentId := none,
      projectId := "proj-1", bidId := "bid-1", payerId := "u-owner", payeeId := "u-sup",
      amount := "5000.00", currency := "INR", status := "created", type := "escrow",
      webhookProcessed := false, auditTrail := [] }
    (by decide) rfl rfl rfl rfl (by decide) (by decide) rfl

/-- C9: confirmed — the Payment `auditTrail` is append-only under
`updatePaymentStatus`: in the in-memory store, whatever row a payment lookup
returned before an update, the same lookup afterwards returns a row whose
trail is the old trail with (at most) new entries appended at the end; and
the `DatabaseStorage` variant's row update likewise only ever appends the
stamped entry to the existing trail.  No entry is removed, truncated or
rewritten. -/
theorem c9_audit_trail_append_only :
    (∀ (st : St) (id status : String) (rzp : Option String) (entry : Option AuditEntry)
        (pid : String) (q q' : Payment),
        getPayment st pid = some q →
        getPayment (updatePaymentStatus st id status rzp entry).2 pid = some q' →
        ∃ tail, q'.auditTrail = q.auditTrail ++ tail) ∧
    (∀ (p : Payment) (status : String) (rzp : Option String) (entry : Option AuditEntry)
        (now : Nat),
        ∃ tail, (dbUpdatePaymentRow p status rzp entry now).auditTrail = p.auditTrail ++ tail) := by
  constructor
  · intro st id status rzp entry pid q q' hq hq'
    simp only [getPayment] at hq
    rcases hfound : st.payments.find? (fun r => r.id == id) with _ | p
    · simp only [updatePaymentStatus, getPayment, hfound] at hq'
      rw [hq] at hq'
      obtain rfl := Option.some_inj.mp hq'
      exact ⟨[], by simp⟩
    · simp only [updatePaymentStatus, getPayment, hfound] at hq' 
      rw [find?_map_comm _ _ _ (by
        intro a _
        cases ha : a.id == id with
        | true =>
          have hpa : p.id = id := by simpa using List.find?_some hfound
          have haa : a.id = id := by simpa using ha
          simp [ha, hpa, haa]
        | false => simp [ha])] at hq'
      rw [hq] at hq'
      simp only [Option.map_some', Option.some_inj] at hq'
      subst hq'
      cases hcase : q.id == id with
      | false => exact ⟨[], by simp [hcase]⟩
      | true =>
        have hqid : q.id = id := by simpa using hcase
        have hqpid : q.id = pid := by simpa using List.find?_some hq
        have hpid : pid = id := by rw [← hqpid, hqid]
        subst hpid
        have h1 : st.payments.find? (fun r => r.id == pid) = some p := hfound
        rw [hq] at h1
        obtain rfl := Option.some_inj.mp h1
        cases entry with
        | none => exact ⟨[], by simp [hcase]⟩
        | some e => exact ⟨[{ e with timestamp := st.now }], by simp [hcase]⟩
  · intro p status rzp entry now
    cases entry with
    | none =>
      refine ⟨[], ?_⟩
      simp only [dbUpdatePaymentRow]
      cases rzp with
      | none => simp
      | some s => by_cases hs : s = "" <;> simp [hs]
    | some e =>
      refine ⟨[{ e with timestamp := now }], ?_⟩
      simp only [dbUpdatePaymentRow]

/-- C9 witness: updating `pay_0` to `paid` with a `payment_verified` entry
appends exactly that stamped entry to the previously empty trail, and the
database-variant row update behaves the same. -/
theorem c9_audit_trail_append_only_witness :
    (∃ tail, ([{ action := "payment_verified", userId := some "u-owner",
                 razorpayPaymentId := some "rzp1", verificationMethod := some "frontend",
                 timestamp := 7, details := [("orderId", "order_0")] }] : List AuditEntry)
        = ([] : List AuditEntry) ++ tail) ∧
    (∃ tail,
      (dbUpdatePaymentRow
        { id := "pay_0", razorpayOrderId := "order_0", razorpayPaymentId := none,
          projectId := "proj-1", bidId := "bid-1", payerId := "u-owner", payeeId := "u-sup",
          amount := "5000.00", currency := "INR", status := "created", type := "escrow",
          webhookProcessed := false, auditTrail := [] }
        "failed" none
        (some { action := "webhook_payment_failed", userId := none,
                razorpayPaymentId := none, verificationMethod := some "webhook",
                timestamp := 0, details := [] }) 9).auditTrail
      = ({ id := "pay_0", razorpayOrderId := "order_0", razorpayPaymentId := none,
           projectId := "proj-1", bidId := "bid-1", payerId := "u-owner", payeeId := "u-sup",
           amount := "5000.00", currency := "INR", status := "created", type := "escrow",
           webhookProcessed := false, auditTrail := [] } : Payment).auditTrail ++ tail) := by
  constructor
  · exact c9_audit_trail_append_only.1 stAfterOrder "pay_0" "paid" (some "rzp1")
      (some { action := "payment_verified", userId := some "u-owner",
              razorpayPaymentId := some "rzp1", verificationMethod := some "frontend",
              timestamp := 0, details := [("orderId", "order_0")] })
      "pay_0"
      { id := "pay_0", razorpayOrderId := "order_0", razorpayPaymentId := none,
        projectId := "proj-1", bidId := "bid-1", payerId := "u-owner", payeeId := "u-sup",
        amount := "5000.00", currency := "INR", status := "created", type := "escrow",
        webhookProcessed := false, auditTrail := [] }
      { id := "pay_0", razorpayOrderId := "order_0", razorpayPaymentId := some "rzp1",
        projectId := "proj-1", bidId := "bid-1", payerId := "u-owner", payeeId := "u-sup",
        amount := "5000.00", currency := "INR", status := "paid", type := "escrow",
        webhookProcessed := false,
        auditTrail := [{ action := "payment_verified", userId := some "u-owner",
                         razorpayPaymentId := some "rzp1",
                         verificationMethod := some "frontend",
                         timestamp := 7, details := [("orderId", "order_0")] }] }
      (by decide) (by decide)
  · exact c9_audit_trail_append_only.2 _ "failed" none _ 9

/-- C10: confirmed — the manual bid-award endpoint, given only that the bid
exists and the requester owns the bid's project, answers success and sets the
bid `accepted` and the project `awarded` with `awardedBidId` pointing at that
bid.  There is no hypothesis that the bid is `pending` or that the project is
not already awarded, so an owner can award a second bid of an
already-awarded project, overwriting `awardedBidId`. -/
theorem c10_manual_award_unconditional
    (st : St) (user bidId : String) (bid : Bid) (project : Project)
    (hb : getBid st bidId = some bid)
    (hp : getProject st bid.projectId = some project)
    (hown : project.ownerId = user) :
    (awardBidEndpoint st user bidId).1 = AwardRes.success ∧
    getBid (awardBidEndpoint st user bidId).2 bidId = some { bid with status := "accepted" } ∧
    getProject (awardBidEndpoint st user bidId).2 bid.projectId
        = some { project with status := "awarded", awardedBidId := some bidId } := by
  have hstate : (awardBidEndpoint st user bidId).2
      = updateProjectAward (updateBidStatus st bidId "accepted") bid.projectId
          "awarded" (some bidId) := by
    simp [awardBidEndpoint, hb, hp, hown]
  refine ⟨by simp [awardBidEndpoint, hb, hp, hown], ?_, ?_⟩
  · rw [hstate]
    simp only [getBid, updateProjectAward, updateBidStatus]
    rw [find?_map_comm _ _ _ (by intro a _; cases ha : a.id == bidId <;> simp [ha])]
    rw [show st.bids.find? (fun b => b.id == bidId) = some bid from hb]
    have hbe : bid.id = bidId := by simpa using List.find?_some hb
    simp [hbe]
  · rw [hstate]
    simp only [getProject, updateProjectAward, updateBidStatus]
    rw [find?_map_comm _ _ _
      (by intro a _; cases ha : a.id == bid.projectId <;> simp [ha])]
    rw [show st.projects.find? (fun p => p.id == bid.projectId) = some project from hp]
    have hpe : project.id = bid.projectId := by simpa using List.find?_some hp
    simp [hpe]

/-- C10 witness: on a project already awarded to `bid-2`, awarding the
`rejected` bid `bid-1` succeeds and overwrites `awardedBidId` with `bid-1`. -/
theorem c10_manual_award_unconditional_witness :
    (awardBidEndpoint alreadyAwardedSt "u-owner" "bid-1").1 = AwardRes.success ∧
    getBid (awardBidEndpoint alreadyAwardedSt "u-owner" "bid-1").2 "bid-1"
        = some { id := "bid-1", projectId := "proj-1", supplierId := "u-sup",
                 price := "5000.00", status := "accepted" } ∧
    getProject (awardBidEndpoint alreadyAwardedSt "u-owner" "bid-1").2 "proj-1"
        = some { id := "proj-1", ownerId := "u-owner", status := "awarded",
                 awardedBidId := some "bid-1" } := by
  exact c10_manual_award_unconditional alreadyAwardedSt "u-owner" "bid-1"
    { id := "bid-1", projectId := "proj-1", supplierId := "u-sup",
      price := "5000.00", status := "rejected" }
    { id := "proj-1", ownerId := "u-owner", status := "awarded",
      awardedBidId := some "bid-2" }
    (by decide) (by decide) rfl

end BuildBidz
